import Mathlib

/-!
# Verification of the express-call-campaign execution plane

A shallow embedding, in Lean, of the core of the `express-call-campaign`
repository: the schedule evaluator (`src/lib/schedule_utils.ts`), the
call-task worker and the scheduler loop (`src/workers`), and the campaign
status aggregator (`src/services/call-campaigns.service.ts`), together with
theorems settling the specification claims about them.

Modelling conventions:
* Instants are integers counting minutes since the Unix epoch
  (1970-01-01 00:00 UTC, a Thursday).  All times the code manipulates are
  minute-granular (schedule rules are "HH:MM" strings).
* A time zone is modelled as a fixed offset in minutes: `toZonedTime`
  adds the offset and `fromZonedTime` subtracts it.  This captures the
  wall-clock arithmetic of `date-fns-tz` for fixed-offset zones; DST
  transitions of named IANA zones are outside the model (the source module
  itself does not correct for them).
* JavaScript strings are Lean `String`s; operations are carried out on the
  underlying character lists so that concrete instances evaluate inside
  the kernel.
* The database and the Redis counter are explicit state records; a Prisma
  `$transaction` is a single simultaneous update of the state.
-/

namespace CallCampaign

/-! ## Schedule evaluator (`src/lib/schedule_utils.ts`) -/

/-- The dynamic `schedule_rules` JSON column, as far as
`isValidScheduleRules` inspects it: each field is `none` when it is absent
or not of the expected runtime type (`Array.isArray(rules.days)`,
`typeof rules.start_time === 'string'`, `typeof rules.end_time === 'string'`). -/
structure RawScheduleRules where
  days : Option (List String)
  start_time : Option String
  end_time : Option String
deriving DecidableEq

/-- A `call_schedules` row.  `time_zone` is the zone's fixed offset from
UTC in minutes (see the module docstring). -/
structure call_schedules where
  id : Nat
  schedule_rules : RawScheduleRules
  time_zone : Int
deriving DecidableEq

/-- The regular expression test `^\d{2}:\d{2}$` used by
`isValidScheduleRules` on `start_time` and `end_time`. -/
def matchesHHMM (s : String) : Bool :=
  match s.data with
  | [a, b, c, d, e] => a.isDigit && b.isDigit && c == ':' && d.isDigit && e.isDigit
  | _ => false

/-- `isValidScheduleRules` from `schedule_utils.ts`: `days` must be an
array, and both time strings must exist and match `^\d{2}:\d{2}$`.
(No check that the digits form a valid 24-hour time, and no check on the
contents of `days`.) -/
def isValidScheduleRules (rules : RawScheduleRules) : Bool :=
  rules.days.isSome &&
    (match rules.start_time with
     | some s => matchesHHMM s
     | none => false) &&
    (match rules.end_time with
     | some s => matchesHHMM s
     | none => false)

/-- The `dayNameToIndex` lookup object applied to a lowercased character
list: `sunday ↦ 0`, …, `saturday ↦ 6`, anything else `undefined`. -/
def dayNameToIndex (s : List Char) : Option Nat :=
  if s = "sunday".data then some 0
  else if s = "monday".data then some 1
  else if s = "tuesday".data then some 2
  else if s = "wednesday".data then some 3
  else if s = "thursday".data then some 4
  else if s = "friday".data then some 5
  else if s = "saturday".data then some 6
  else none

/-- `day.toLowerCase()` for the ASCII day names. -/
def toLowerStr (s : String) : List Char :=
  s.data.map Char.toLower

/-- `days.map(day => dayNameToIndex[day.toLowerCase()]).filter(d => d !== undefined)`:
the weekday indices that the entries of `days` resolve to.  (The source
puts them in a `Set`; only emptiness and membership of the collection are
ever used, so a list with possible duplicates is an equivalent model.) -/
def resolvedDays (days : List String) : List Nat :=
  days.filterMap (fun d => dayNameToIndex (toLowerStr d))

/-- Numeric value of an ASCII digit. -/
def digitVal (c : Char) : Nat := c.toNat - '0'.toNat

/-- `s.split(':').map(Number)` on a string matching `^\d{2}:\d{2}$`:
the hour and minute components.  (Only ever applied after the regular
expression test has succeeded; on any other shape it is unreachable and
returns `(0, 0)`.) -/
def parseTimeParts (s : String) : Int × Int :=
  match s.data with
  | [a, b, _, d, e] =>
    ((10 * digitVal a + digitVal b : Nat), (10 * digitVal d + digitVal e : Nat))
  | _ => (0, 0)

/-- Total minutes after midnight denoted by an `(hour, minute)` pair;
`set(startOfDay(d), {hours, minutes})` places the instant at exactly this
many minutes after midnight (JavaScript date setters roll an out-of-range
hour over into the following days, which addition also does). -/
def totalMinutes (p : Int × Int) : Int := 60 * p.1 + p.2

/-- `startOfDay` from date-fns: midnight of the wall-clock day containing
`c` (floor to a multiple of 1440 minutes). -/
def startOfDay (c : Int) : Int := 1440 * (c / 1440)

/-- `getDay` from date-fns: weekday of the wall-clock instant `c`,
`0 = Sunday … 6 = Saturday`.  Day 0 of the epoch is a Thursday (= 4). -/
def getDay (c : Int) : Nat := ((c / 1440 + 4) % 7).toNat

/-- The `for (let i = 0; i < 14; i++)` search loop of
`getNextValidScheduleDate`, on wall-clock minutes.  `startMin`/`endMin`
are the window bounds in minutes after midnight.  Each iteration: if the
candidate's weekday is a valid day, return the window start when the
candidate is before it (`isBefore`), return the candidate itself when it
is not after the window end (`!isAfter`); otherwise advance to the start
of the next day (`startOfDay(addDays(candidate, 1))`). -/
def searchLoop (validDays : List Nat) (startMin endMin : Int) :
    Int → Nat → Option Int
  | _, 0 => none
  | candidate, fuel + 1 =>
    if getDay candidate ∈ validDays then
      let windowStart := startOfDay candidate + startMin
      let windowEnd := startOfDay candidate + endMin
      if candidate < windowStart then some windowStart
      else if candidate ≤ windowEnd then some candidate
      else searchLoop validDays startMin endMin (startOfDay (candidate + 1440)) fuel
    else searchLoop validDays startMin endMin (startOfDay (candidate + 1440)) fuel

/-- `getNextValidScheduleDate(schedule, startingFrom)` from
`schedule_utils.ts`: validate the rules, resolve the day names, parse the
window bounds, convert the starting instant to the schedule's zone
(`toZonedTime` = add the offset), run the 14-day search loop, and convert
a hit back to UTC (`fromZonedTime` = subtract the offset). -/
def getNextValidScheduleDate (schedule : call_schedules) (startingFrom : Int) :
    Option Int :=
  if isValidScheduleRules schedule.schedule_rules then
    match schedule.schedule_rules.days, schedule.schedule_rules.start_time,
        schedule.schedule_rules.end_time with
    | some days, some startTime, some endTime =>
      let validDays := resolvedDays days
      if validDays = [] then none
      else
        let startMin := totalMinutes (parseTimeParts startTime)
        let endMin := totalMinutes (parseTimeParts endTime)
        let candidate := startingFrom + schedule.time_zone
        (searchLoop validDays startMin endMin candidate 14).map
          (fun w => w - schedule.time_zone)
    | _, _, _ => none
  else none

/-- Minutes after midnight of a wall-clock instant. -/
def timeOfDay (w : Int) : Int := w % 1440

/-- The weekday indices a rules object's `days` entries resolve to
(empty when `days` is absent). -/
def resolvedDaysOf (rules : RawScheduleRules) : List Nat :=
  match rules.days with
  | some ds => resolvedDays ds
  | none => []

/-! ## Call-task worker (`src/workers/callTaskWorker.ts`, the
concurrency-aware worker of the pair) -/

/-- `call_task_status`: the task status enum of the schema
(the schema spells the third value `in-progress`). -/
inductive TaskStatus
  | pending
  | inProgress
  | completed
  | failed
deriving DecidableEq

/-- `call_log_status`: the status enum of `call_logs`
(the worker writes the spelling `in_progress`). -/
inductive LogStatus
  | initiated
  | inProgress
  | completed
  | failed
deriving DecidableEq

/-- The fields of a `call_tasks` row that the worker reads or writes.
`scheduled_at` is an `Option` because the concurrency-denial path stores
the result of `getNextValidScheduleDate` unchecked (`newScheduledAt as
Date` may be `null`). -/
structure call_tasks where
  status : TaskStatus
  retry_count : Nat
  scheduled_at : Option Int
  updated_at : Int
deriving DecidableEq

/-- The fields of a `call_campaigns` row that the worker reads or writes,
with the campaign's joined `call_schedules` row. -/
structure call_campaigns where
  is_paused : Bool
  max_concurrent_calls : Int
  max_retries : Nat
  completed_tasks : Nat
  failed_tasks : Nat
  retries_attempted : Nat
  total_tasks : Nat
  updated_at : Int
  call_schedules : call_schedules
deriving DecidableEq

/-- The fields of a `call_logs` row that the worker writes. -/
structure call_logs where
  status : LogStatus
  started_at : Int
  ended_at : Option Int
deriving DecidableEq

/-- The state a single worker execution reads and writes: the task row the
job refers to (`none` models a missing row), its campaign row, the Redis
counter `campaign:{id}:active_calls`, and the `call_logs` table restricted
to this task. -/
structure WorkerState where
  task : Option call_tasks
  campaign : call_campaigns
  activeCalls : Int
  logs : List call_logs
deriving DecidableEq

/-- The job outcomes of the worker processor (its `return` values; every
one of them acknowledges the job). -/
inductive WorkerResult
  | taskNotFound
  | concurrencyDenied
  | success
  | retryableError
  | maxRetriesExhausted
deriving DecidableEq

/-- One execution of the `callTaskWorker` processor on a dequeued job, at
instant `now`, with the placer outcome `placerSucceeds` (the mock
`simulateCall` resolves with probability 0.9; the outcome is an input of
the model).  Faithful to the source:

* the task is loaded with `findUnique({ where: { id, status: 'pending' } })`,
  so a missing row or any status other than `pending` yields
  `task_not_found` and no write;
* the gate is `incr`; on `counter > max_concurrent_calls` it `decr`s,
  rewrites the task to `pending` at the next valid slot — and then the
  `finally` block `decr`s again;
* otherwise a log row is created (`initiated`), `simulateCall` sets it to
  `in_progress`, and the placer outcome selects the success transaction,
  the retry-reschedule transaction, or the permanent-failure transaction,
  each modelled as one simultaneous update; the `finally` block `decr`s. -/
def workerStep (s : WorkerState) (now : Int) (placerSucceeds : Bool) :
    WorkerState × WorkerResult :=
  match s.task with
  | none => (s, WorkerResult.taskNotFound)
  | some t =>
    if t.status ≠ TaskStatus.pending then (s, WorkerResult.taskNotFound)
    else
      let campaign := s.campaign
      let activeCalls := s.activeCalls + 1
      if activeCalls > campaign.max_concurrent_calls then
        let newScheduledAt := getNextValidScheduleDate campaign.call_schedules now
        let t' := { t with
          status := TaskStatus.pending
          scheduled_at := newScheduledAt
          updated_at := now }
        ({ s with task := some t', activeCalls := activeCalls - 1 - 1 },
          WorkerResult.concurrencyDenied)
      else
        let createdLog : call_logs :=
          { status := LogStatus.initiated, started_at := now, ended_at := none }
        let placedLog := { createdLog with status := LogStatus.inProgress }
        if placerSucceeds then
          let completedLog :=
            { placedLog with status := LogStatus.completed, ended_at := some now }
          let t' := { t with status := TaskStatus.completed, updated_at := now }
          let c' := { campaign with
            completed_tasks := campaign.completed_tasks + 1
            updated_at := now }
          ({ task := some t', campaign := c', activeCalls := activeCalls - 1,
             logs := s.logs ++ [completedLog] }, WorkerResult.success)
        else
          if t.retry_count < campaign.max_retries then
            let newScheduledAt := getNextValidScheduleDate campaign.call_schedules now
            let t' := { t with
              status := TaskStatus.pending
              retry_count := t.retry_count + 1
              scheduled_at := newScheduledAt
              updated_at := now }
            let c' := { campaign with
              retries_attempted := campaign.retries_attempted + 1
              updated_at := now }
            ({ task := some t', campaign := c', activeCalls := activeCalls - 1,
               logs := s.logs ++ [placedLog] }, WorkerResult.retryableError)
          else
            let t' := { t with status := TaskStatus.failed, updated_at := now }
            let c' := { campaign with
              failed_tasks := campaign.failed_tasks + 1
              updated_at := now }
            ({ task := some t', campaign := c', activeCalls := activeCalls - 1,
               logs := s.logs ++ [placedLog] }, WorkerResult.maxRetriesExhausted)

/-! ## Scheduler tick (`checkAndScheduleCampaigns` in
`src/workers/callSchedulerWorker.ts`) -/

/-- `SCHEDULE_WINDOW_MINUTES` from the scheduler. -/
def SCHEDULE_WINDOW_MINUTES : Int := 1

/-- `GLOBAL_MAX_CONCURRENT_CALLS`, the `LIMIT` of the claim query. -/
def GLOBAL_MAX_CONCURRENT_CALLS : Nat := 50

/-- The columns of a `call_campaigns` row the claim query reads. -/
structure db_campaign where
  id : Nat
  is_paused : Bool
deriving DecidableEq

/-- The columns of a `call_tasks` row the claim query reads or writes. -/
structure db_task where
  id : Nat
  campaign_id : Nat
  status : TaskStatus
  scheduled_at : Int
  updated_at : Int
deriving DecidableEq

/-- The `WHERE` clause of the inner `SELECT` of the claim query: the
task's campaign exists and is not paused (`JOIN … WHERE cc.is_paused =
FALSE`), the task is `pending`, its `scheduled_at` is within
`NOW() + (SCHEDULE_WINDOW_MINUTES + 1) minutes`, and the row is not held
by a concurrent claimer (`FOR UPDATE SKIP LOCKED`; `locked` is the set of
row ids currently locked elsewhere). -/
def claimEligible (campaigns : List db_campaign) (now : Int) (locked : List Nat)
    (t : db_task) : Bool :=
  campaigns.any (fun c => c.id == t.campaign_id && c.is_paused == false)
    && t.status == TaskStatus.pending
    && decide (t.scheduled_at ≤ now + (SCHEDULE_WINDOW_MINUTES + 1))
    && !(locked.contains t.id)

/-- The possible result sets of the claim query's inner `SELECT`:
`ORDER BY ct.scheduled_at ASC LIMIT 50` returns the first 50 rows of some
ordering of the eligible rows that is ascending in `scheduled_at`; ties in
`scheduled_at` are returned in an order the statement does not specify. -/
def claimOutcome (campaigns : List db_campaign) (tasks : List db_task)
    (now : Int) (locked : List Nat) (out : List db_task) : Prop :=
  ∃ ordered : List db_task,
    List.Perm ordered (tasks.filter (claimEligible campaigns now locked)) ∧
    List.Sorted (fun a b => a.scheduled_at ≤ b.scheduled_at) ordered ∧
    out = ordered.take GLOBAL_MAX_CONCURRENT_CALLS

/-- The `UPDATE call_tasks SET status = 'in-progress', updated_at = NOW()`
applied to the claimed row ids. -/
def applyClaim (tasks : List db_task) (claimedIds : List Nat) (now : Int) :
    List db_task :=
  tasks.map (fun t =>
    if claimedIds.contains t.id then
      { t with status := TaskStatus.inProgress, updated_at := now }
    else t)

/-- `enqueueCallTasks(callsToRun.map(ct => ({callTaskId: ct.id})))`: the
bulk-enqueued task ids, in claim order. -/
def enqueuedIds (out : List db_task) : List Nat := out.map (fun t => t.id)

/-- The selection the claim's sentence describes: the eligible rows in
ascending `scheduled_at` order with ties broken by `id`, truncated at 50.
(Spec-side definition, for comparison with `claimOutcome`.) -/
def claimSpecList (campaigns : List db_campaign) (tasks : List db_task)
    (now : Int) (locked : List Nat) : List db_task :=
  (List.insertionSort
    (fun a b => a.scheduled_at < b.scheduled_at ∨
      (a.scheduled_at = b.scheduled_at ∧ a.id ≤ b.id))
    (tasks.filter (claimEligible campaigns now locked))).take
    GLOBAL_MAX_CONCURRENT_CALLS

/-! ## Campaign status aggregator
(`callCampaignService.getCampaignStatus` in `call-campaigns.service.ts`) -/

/-- The return type of `getCampaignStatus`
(`'paused' | 'pending' | 'in-progress' | 'completed' | 'failed'`). -/
inductive CampaignStatus
  | paused
  | pending
  | inProgress
  | completed
  | failed
deriving DecidableEq

/-- `getCampaignStatus`, given the campaign's `is_paused` flag and the
statuses of its task rows.  The aggregate query's counts
(`COUNT(*)` and the four `FILTER (WHERE status = …)` counts) are the
length and `countP`s of the status list. -/
def getCampaignStatus (is_paused : Bool) (tasks : List TaskStatus) :
    CampaignStatus :=
  if is_paused then CampaignStatus.paused
  else
    let totalTasks := tasks.length
    let failedCount := tasks.countP (fun t => t == TaskStatus.failed)
    let inProgressCount := tasks.countP (fun t => t == TaskStatus.inProgress)
    let pendingCount := tasks.countP (fun t => t == TaskStatus.pending)
    let completedCount := tasks.countP (fun t => t == TaskStatus.completed)
    if totalTasks = 0 then CampaignStatus.paused
    else if failedCount > 0 then CampaignStatus.failed
    else if inProgressCount > 0 ∨ pendingCount > 0 then CampaignStatus.inProgress
    else if completedCount = totalTasks then CampaignStatus.completed
    else CampaignStatus.paused

/-- The derivation the claim describes, stated with list membership
instead of aggregate counts (spec-side definition, for comparison with
`getCampaignStatus`). -/
def campaignStatusSpec (is_paused : Bool) (tasks : List TaskStatus) :
    CampaignStatus :=
  if is_paused then CampaignStatus.paused
  else if tasks = [] then CampaignStatus.paused
  else if TaskStatus.failed ∈ tasks then CampaignStatus.failed
  else if TaskStatus.pending ∈ tasks ∨ TaskStatus.inProgress ∈ tasks then
    CampaignStatus.inProgress
  else if ∀ t ∈ tasks, t = TaskStatus.completed then CampaignStatus.completed
  else CampaignStatus.paused

/-! ## Concrete fixtures -/

/-- A Monday-only 09:00–17:00 schedule at UTC offset 0. -/
def schedMon : call_schedules :=
  ⟨1, ⟨some ["monday"], some "09:00", some "17:00"⟩, 0⟩

/-- Monday 1970-01-05 08:00 UTC, in minutes since the epoch. -/
def mondayEight : Int := 4 * 1440 + 480

/-- A live campaign: cap 1 concurrent call, 2 retries, zeroed counters. -/
def campaignFixture : call_campaigns :=
  { is_paused := false, max_concurrent_calls := 1, max_retries := 2,
    completed_tasks := 0, failed_tasks := 0, retries_attempted := 0,
    total_tasks := 1, updated_at := 0, call_schedules := schedMon }

/-- A pending task with no completed attempts. -/
def taskPendingFixture : call_tasks :=
  { status := TaskStatus.pending, retry_count := 0,
    scheduled_at := some mondayEight, updated_at := 0 }

/-- A live campaign row for the claim query. -/
def claimCampaignA : db_campaign := ⟨1, false⟩

/-- Two due pending tasks of that campaign with equal `scheduled_at`. -/
def taskA : db_task := ⟨1, 1, TaskStatus.pending, 0, 0⟩

/-- See `taskA`; same `scheduled_at`, larger id. -/
def taskB : db_task := ⟨2, 1, TaskStatus.pending, 0, 0⟩

/-! ## Supporting lemmas -/

/-- Path characterization: missing task row. -/
theorem workerStep_none (s : WorkerState) (now : Int) (ok : Bool)
    (h : s.task = none) : workerStep s now ok = (s, WorkerResult.taskNotFound) := by
  unfold workerStep
  rw [h]

/-- Path characterization: the load's `status: 'pending'` filter rejects
the row. -/
theorem workerStep_not_found (s : WorkerState) (now : Int) (ok : Bool)
    (t : call_tasks) (hload : s.task = some t)
    (h : t.status ≠ TaskStatus.pending) :
    workerStep s now ok = (s, WorkerResult.taskNotFound) := by
  unfold workerStep
  rw [hload]
  simp [h]

/-- Path characterization: concurrency denial. -/
theorem workerStep_denied (s : WorkerState) (now : Int) (ok : Bool)
    (t : call_tasks) (hload : s.task = some t)
    (hpend : t.status = TaskStatus.pending)
    (hdeny : s.activeCalls + 1 > s.campaign.max_concurrent_calls) :
    workerStep s now ok =
      ({ s with
          task := some { t with
            status := TaskStatus.pending
            scheduled_at := getNextValidScheduleDate s.campaign.call_schedules now
            updated_at := now }
          activeCalls := s.activeCalls + 1 - 1 - 1 },
        WorkerResult.concurrencyDenied) := by
  unfold workerStep
  rw [hload]
  simp [hpend, hdeny]

/-- Path characterization: admitted execution, placer succeeds. -/
theorem workerStep_success (s : WorkerState) (now : Int)
    (t : call_tasks) (hload : s.task = some t)
    (hpend : t.status = TaskStatus.pending)
    (hcap : ¬ s.activeCalls + 1 > s.campaign.max_concurrent_calls) :
    workerStep s now true =
      ({ task := some { t with status := TaskStatus.completed, updated_at := now }
         campaign := { s.campaign with
           completed_tasks := s.campaign.completed_tasks + 1
           updated_at := now }
         activeCalls := s.activeCalls + 1 - 1
         logs := s.logs ++ [⟨LogStatus.completed, now, some now⟩] },
        WorkerResult.success) := by
  unfold workerStep
  rw [hload]
  simp [hpend, hcap]

/-- Path characterization: admitted execution, placer fails, retries
remain. -/
theorem workerStep_retry (s : WorkerState) (now : Int)
    (t : call_tasks) (hload : s.task = some t)
    (hpend : t.status = TaskStatus.pending)
    (hcap : ¬ s.activeCalls + 1 > s.campaign.max_concurrent_calls)
    (hr : t.retry_count < s.campaign.max_retries) :
    workerStep s now false =
      ({ task := some { t with
           status := TaskStatus.pending
           retry_count := t.retry_count + 1
           scheduled_at := getNextValidScheduleDate s.campaign.call_schedules now
           updated_at := now }
         campaign := { s.campaign with
           retries_attempted := s.campaign.retries_attempted + 1
           updated_at := now }
         activeCalls := s.activeCalls + 1 - 1
         logs := s.logs ++ [⟨LogStatus.inProgress, now, none⟩] },
        WorkerResult.retryableError) := by
  unfold workerStep
  rw [hload]
  simp [hpend, hcap, hr]

/-- Path characterization: admitted execution, placer fails, retries
exhausted. -/
theorem workerStep_failed (s : WorkerState) (now : Int)
    (t : call_tasks) (hload : s.task = some t)
    (hpend : t.status = TaskStatus.pending)
    (hcap : ¬ s.activeCalls + 1 > s.campaign.max_concurrent_calls)
    (hr : ¬ t.retry_count < s.campaign.max_retries) :
    workerStep s now false =
      ({ task := some { t with status := TaskStatus.failed, updated_at := now }
         campaign := { s.campaign with
           failed_tasks := s.campaign.failed_tasks + 1
           updated_at := now }
         activeCalls := s.activeCalls + 1 - 1
         logs := s.logs ++ [⟨LogStatus.inProgress, now, none⟩] },
        WorkerResult.maxRetriesExhausted) := by
  unfold workerStep
  rw [hload]
  simp [hpend, hcap, hr]

/-- A worker execution never changes the campaign's `max_retries`. -/
theorem workerStep_max_retries (s : WorkerState) (now : Int) (ok : Bool) :
    (workerStep s now ok).1.campaign.max_retries = s.campaign.max_retries := by
  unfold workerStep
  rcases s.task with _ | t
  · rfl
  · by_cases h1 : t.status ≠ TaskStatus.pending
    · simp [h1]
    · simp only [h1, if_false]
      by_cases h2 : s.activeCalls + 1 > s.campaign.max_concurrent_calls
      · simp [h2]
      · simp only [h2, if_false]
        cases ok
        · by_cases h3 : t.retry_count < s.campaign.max_retries
          · simp [h3]
          · simp [h3]
        · simp

/-- Both components of a parsed time are non-negative. -/
theorem parseTimeParts_nonneg (s : String) :
    0 ≤ (parseTimeParts s).1 ∧ 0 ≤ (parseTimeParts s).2 := by
  unfold parseTimeParts
  split
  · constructor <;> positivity
  · constructor <;> simp

/-- Every index `dayNameToIndex` produces is a weekday index `< 7`. -/
theorem dayNameToIndex_lt (s : List Char) (n : Nat)
    (h : dayNameToIndex s = some n) : n < 7 := by
  unfold dayNameToIndex at h
  split_ifs at h <;> · injection h with h; omega

/-- Every member of a resolved day set is a weekday index `< 7`. -/
theorem resolvedDays_lt (days : List String) (n : Nat)
    (h : n ∈ resolvedDays days) : n < 7 := by
  unfold resolvedDays at h
  obtain ⟨d, _, hd⟩ := List.mem_filterMap.mp h
  exact dayNameToIndex_lt _ _ hd

/-- Soundness of the search loop: under a well-ordered valid 24-hour
window, any instant it returns is at or after the starting candidate, on a
weekday of the valid-day set, and inside the window. -/
theorem searchLoop_sound (vd : List Nat) (sMin eMin : Int)
    (hs0 : 0 ≤ sMin) (hse : sMin ≤ eMin) (he : eMin ≤ 1439) :
    ∀ (fuel : Nat) (c s : Int), searchLoop vd sMin eMin c fuel = some s →
      c ≤ s ∧ getDay s ∈ vd ∧ sMin ≤ timeOfDay s ∧ timeOfDay s ≤ eMin := by
  intro fuel
  induction fuel with
  | zero =>
    intro c s h
    simp [searchLoop] at h
  | succ n ih =>
    intro c s h
    simp only [searchLoop] at h
    split at h
    case isTrue hd =>
      split at h
      case isTrue hA =>
        injection h with h
        subst h
        have hday : getDay (startOfDay c + sMin) = getDay c := by
          unfold getDay startOfDay
          congr 1
          omega
        refine ⟨?_, hday ▸ hd, ?_, ?_⟩
        · unfold startOfDay at hA ⊢
          omega
        · unfold timeOfDay startOfDay
          omega
        · unfold timeOfDay startOfDay
          omega
      case isFalse hA =>
        split at h
        case isTrue hB =>
          injection h with h
          subst h
          refine ⟨le_refl _, hd, ?_, ?_⟩
          · unfold startOfDay at hA
            unfold timeOfDay
            omega
          · unfold startOfDay at hB
            unfold timeOfDay
            omega
        case isFalse hB =>
          obtain ⟨h1, h2, h3, h4⟩ := ih _ _ h
          refine ⟨?_, h2, h3, h4⟩
          unfold startOfDay at h1
          omega
    case isFalse hd =>
      obtain ⟨h1, h2, h3, h4⟩ := ih _ _ h
      refine ⟨?_, h2, h3, h4⟩
      unfold startOfDay at h1
      omega

/-- A search-loop step started at a midnight whose weekday is valid
returns a hit immediately (window bounds are non-negative, so the
candidate is before the window start, or `start_time` is `00:00` and
midnight itself is not after the window end). -/
theorem searchLoop_midnight_isSome (vd : List Nat) (sMin eMin : Int)
    (he0 : 0 ≤ eMin) (m : Int) (hm : m = startOfDay m)
    (hd : getDay m ∈ vd) (fuel : Nat) :
    (searchLoop vd sMin eMin m (fuel + 1)).isSome = true := by
  simp only [searchLoop]
  rw [if_pos hd]
  by_cases hA : m < startOfDay m + sMin
  · rw [if_pos hA]
    rfl
  · rw [if_neg hA, if_pos (by omega)]
    rfl

/-- If a search-loop run returns nothing, so does the run started one day
later with one less unit of fuel. -/
theorem searchLoop_none_step (vd : List Nat) (sMin eMin c : Int) (n : Nat)
    (h : searchLoop vd sMin eMin c (n + 1) = none) :
    searchLoop vd sMin eMin (startOfDay c + 1440) n = none := by
  simp only [searchLoop] at h
  have hsd : startOfDay (c + 1440) = startOfDay c + 1440 := by
    unfold startOfDay
    omega
  split at h
  · split at h
    · exact absurd h (by simp)
    · split at h
      · exact absurd h (by simp)
      · rwa [hsd] at h
  · rwa [hsd] at h

/-- If a search-loop run returns nothing, every midnight it would have
scanned also yields nothing with the remaining fuel. -/
theorem searchLoop_none_midnights (vd : List Nat) (sMin eMin : Int) (n : Nat)
    (c : Int) (h : searchLoop vd sMin eMin c n = none) :
    ∀ i : Nat, 1 ≤ i → i < n →
      searchLoop vd sMin eMin (startOfDay c + 1440 * i) (n - i) = none := by
  intro i
  induction i with
  | zero => omega
  | succ k ihk =>
    intro h1 hlt
    rcases Nat.eq_or_lt_of_le h1 with heq | hgt
    · obtain rfl : k = 0 := by omega
      rw [show n = (n - 1) + 1 from by omega] at h
      have := searchLoop_none_step vd sMin eMin c (n - 1) h
      rw [show startOfDay c + 1440 * (1 : Nat) = startOfDay c + 1440 from by
        push_cast
        ring]
      exact this
    · have hk1 : 1 ≤ k := by omega
      have hklt : k < n := by omega
      have Hk := ihk hk1 hklt
      rw [show n - k = (n - (k + 1)) + 1 from by omega] at Hk
      have Hs := searchLoop_none_step vd sMin eMin _ _ Hk
      rw [show startOfDay (startOfDay c + 1440 * (k : Nat)) + 1440
          = startOfDay c + 1440 * ((k : Nat) + 1 : Nat) from by
        unfold startOfDay
        push_cast
        omega] at Hs
      exact Hs

/-- Within the seven midnights following any instant there is one whose
weekday is any given weekday index `< 7`. -/
theorem exists_day_hit (q : Int) (d : Nat) (hd : d < 7) :
    ∃ i : Nat, 1 ≤ i ∧ i ≤ 7 ∧ ((q + i + 4) % 7).toNat = d := by
  refine ⟨1 + (((d : Int) - (q + 5) % 7) % 7).toNat, by omega, by omega, by omega⟩

/-- Completeness of the search loop with 14 days of fuel: whenever the
valid-day set contains a weekday index and the window bounds are
non-negative, the loop finds a hit. -/
theorem searchLoop_complete (vd : List Nat) (sMin eMin : Int)
    (he0 : 0 ≤ eMin) (d : Nat) (hd : d ∈ vd) (hd7 : d < 7)
    (c : Int) : (searchLoop vd sMin eMin c 14).isSome = true := by
  by_contra hnone'
  have hnone : searchLoop vd sMin eMin c 14 = none := by
    rcases h : searchLoop vd sMin eMin c 14 with _ | v
    · rfl
    · rw [h] at hnone'
      simp at hnone'
  obtain ⟨i, hi1, hi7, hhit⟩ := exists_day_hit (c / 1440) d hd7
  have Hi := searchLoop_none_midnights vd sMin eMin 14 c hnone i hi1 (by omega)
  rw [show (14 : Nat) - i = (14 - i - 1) + 1 from by omega] at Hi
  have hmid : startOfDay c + 1440 * i = startOfDay (startOfDay c + 1440 * i) := by
    unfold startOfDay
    omega
  have hday : getDay (startOfDay c + 1440 * i) = d := by
    unfold getDay startOfDay
    omega
  have := searchLoop_midnight_isSome vd sMin eMin he0 _ hmid (hday ▸ hd)
    (14 - i - 1)
  rw [Hi] at this
  simp at this

/-- Exact characterization of when `getNextValidScheduleDate` produces a
result: the runtime shape check passes and at least one `days` entry
resolves to a weekday index.  (In particular the search loop itself never
exhausts its 14 days of fuel.) -/
theorem getNextValidScheduleDate_isSome (sched : call_schedules) (t : Int) :
    (getNextValidScheduleDate sched t).isSome =
      (isValidScheduleRules sched.schedule_rules
        && !(resolvedDaysOf sched.schedule_rules).isEmpty) := by
  unfold getNextValidScheduleDate resolvedDaysOf
  by_cases hv : isValidScheduleRules sched.schedule_rules = true
  · rw [if_pos hv]
    rcases hdays : sched.schedule_rules.days with _ | ds
    · unfold isValidScheduleRules at hv
      rw [hdays] at hv
      simp at hv
    · rcases hst : sched.schedule_rules.start_time with _ | st
      · unfold isValidScheduleRules at hv
        rw [hst] at hv
        simp at hv
      · rcases het : sched.schedule_rules.end_time with _ | et
        · unfold isValidScheduleRules at hv
          rw [het] at hv
          simp at hv
        · by_cases hres : resolvedDays ds = []
          · simp [hres, hv]
          · obtain ⟨d, hd⟩ := List.exists_mem_of_ne_nil _ hres
            have hd7 := resolvedDays_lt ds d hd
            have he0 : 0 ≤ totalMinutes (parseTimeParts et) := by
              have := parseTimeParts_nonneg et
              unfold totalMinutes
              omega
            have hc := searchLoop_complete (resolvedDays ds)
              (totalMinutes (parseTimeParts st)) (totalMinutes (parseTimeParts et))
              he0 d hd hd7 (t + sched.time_zone)
            simp [hres, hv, hc]
  · rw [if_neg hv]
    simp [Bool.not_eq_true] at hv
    simp [hv]

/-! ## Claim theorems -/

/-- **C1.**  The worker's load is
`findUnique({ where: { id: callTaskId, status: 'pending' } })`: evaluating
the processor shows that a task row in status `in-progress` — the status
every scheduler-claimed task has when its job is dequeued — is treated
exactly like a missing row: the job is acknowledged as `task_not_found`
with no state change; a missing row behaves the same; and a row in status
`pending` is the one that proceeds past the load (here through the gate
and placement to success).  This contradicts the claim, under which a task
loaded with status `in-progress` proceeds to the gate and placement. -/
theorem C1_worker_load_filters_on_pending :
    workerStep
        { task := some { taskPendingFixture with status := TaskStatus.inProgress },
          campaign := campaignFixture, activeCalls := 0, logs := [] }
        mondayEight true
      = ({ task := some { taskPendingFixture with status := TaskStatus.inProgress },
           campaign := campaignFixture, activeCalls := 0, logs := [] },
          WorkerResult.taskNotFound)
    ∧ workerStep
        { task := none, campaign := campaignFixture, activeCalls := 0, logs := [] }
        mondayEight true
      = ({ task := none, campaign := campaignFixture, activeCalls := 0, logs := [] },
          WorkerResult.taskNotFound)
    ∧ (workerStep
        { task := some taskPendingFixture, campaign := campaignFixture,
          activeCalls := 0, logs := [] } mondayEight true).2
      = WorkerResult.success := by
  decide

/-- **C2, counterexample.**  With two eligible rows tied on
`scheduled_at` (ids 1 and 2), the result set `[taskB, taskA]` is a
possible outcome of the claim query — it is ascending in `scheduled_at` —
but it is not the selection the claim describes, whose tie-break by id
puts `taskA` first: the query's `ORDER BY ct.scheduled_at ASC` has no
tie-break. -/
theorem C2_counterexample :
    claimOutcome [claimCampaignA] [taskA, taskB] 0 [] [taskB, taskA]
    ∧ [taskB, taskA] ≠ claimSpecList [claimCampaignA] [taskA, taskB] 0 [] := by
  constructor
  · exact ⟨[taskB, taskA], by decide, by decide, by decide⟩
  · decide

/-- **C2, amended.**  Every possible outcome of the scheduler's claim
query consists of at most 50 rows, each eligible (campaign not paused,
status `pending`, `scheduled_at ≤ now + period + 1 min`, not locked by a
concurrent claimer), listed in ascending `scheduled_at` order — with ties
in an unspecified order; the `UPDATE` sets exactly the claimed rows to
`in-progress` with `updated_at = now()`, leaves every other row unchanged,
and the claimed task-ids are bulk-enqueued in that order. -/
theorem C2_claim_due_postcondition (campaigns : List db_campaign)
    (tasks : List db_task) (now : Int) (locked : List Nat) (out : List db_task)
    (h : claimOutcome campaigns tasks now locked out) :
    out.length ≤ GLOBAL_MAX_CONCURRENT_CALLS
    ∧ (∀ t ∈ out, claimEligible campaigns now locked t = true)
    ∧ List.Sorted (fun a b => a.scheduled_at ≤ b.scheduled_at) out
    ∧ (∀ t ∈ tasks,
        (t.id ∈ enqueuedIds out →
          { t with status := TaskStatus.inProgress, updated_at := now }
            ∈ applyClaim tasks (enqueuedIds out) now)
        ∧ (t.id ∉ enqueuedIds out → t ∈ applyClaim tasks (enqueuedIds out) now)) := by
  obtain ⟨ordered, hperm, hsort, hout⟩ := h
  subst hout
  refine ⟨?_, ?_, ?_, ?_⟩
  · exact List.length_take_le _ _
  · intro t ht
    have hmem : t ∈ ordered := List.mem_of_mem_take ht
    have := hperm.mem_iff.mp hmem
    exact (List.mem_filter.mp this).2
  · exact hsort.sublist (List.take_sublist _ _)
  · intro t ht
    have hc : ((enqueuedIds (ordered.take GLOBAL_MAX_CONCURRENT_CALLS)).contains t.id)
        = decide (t.id ∈ enqueuedIds (ordered.take GLOBAL_MAX_CONCURRENT_CALLS)) := by
      simp [List.contains, List.elem_eq_mem]
    constructor
    · intro hid
      refine List.mem_map.mpr ⟨t, ht, ?_⟩
      simp only [applyClaim, hc]
      simp [hid]
    · intro hid
      refine List.mem_map.mpr ⟨t, ht, ?_⟩
      simp only [applyClaim, hc]
      simp [hid]

/-- **C2, witness.**  The amended postcondition instantiated at the
two-task tie, with the `[taskB, taskA]` outcome. -/
theorem C2_witness :
    [taskB, taskA].length ≤ GLOBAL_MAX_CONCURRENT_CALLS
    ∧ (∀ t ∈ [taskB, taskA], claimEligible [claimCampaignA] 0 [] t = true)
    ∧ List.Sorted (fun a b => a.scheduled_at ≤ b.scheduled_at) [taskB, taskA]
    ∧ (∀ t ∈ [taskA, taskB],
        (t.id ∈ enqueuedIds [taskB, taskA] →
          { t with status := TaskStatus.inProgress, updated_at := 0 }
            ∈ applyClaim [taskA, taskB] (enqueuedIds [taskB, taskA]) 0)
        ∧ (t.id ∉ enqueuedIds [taskB, taskA] →
            t ∈ applyClaim [taskA, taskB] (enqueuedIds [taskB, taskA]) 0)) :=
  C2_claim_due_postcondition [claimCampaignA] [taskA, taskB] 0 [] [taskB, taskA]
    ⟨[taskB, taskA], by decide, by decide, by decide⟩

/-- **C3, counterexample.**  For the well-formed but reversed window
`start_time = "17:00" > end_time = "09:00"` on a Monday schedule, starting
Monday 08:00, the function returns Monday 17:00 — neither ⊥ (though the
interval [17:00, 09:00] contains no time at all) nor an instant whose
time of day lies within `[start_time, end_time]`. -/
theorem C3_counterexample :
    getNextValidScheduleDate ⟨1, ⟨some ["monday"], some "17:00", some "09:00"⟩, 0⟩
        (4 * 1440 + 480) = some (4 * 1440 + 1020)
    ∧ ¬ (totalMinutes (parseTimeParts "17:00") ≤ timeOfDay (4 * 1440 + 1020)
          ∧ timeOfDay (4 * 1440 + 1020) ≤ totalMinutes (parseTimeParts "09:00")) := by
  refine ⟨by decide, by decide⟩

/-- **C3, amended.**  For rules whose `start_time` and `end_time` are
valid 24-hour times with `start_time ≤ end_time`, the function returns
either ⊥ or an instant `s ≥ t` whose wall clock in the schedule's zone
falls on a weekday resolved from the `days` list at a time within
`[start_time, end_time]`; and it returns ⊥ exactly when the rules fail the
runtime shape check or no entry of `days` resolves to a weekday (in which
case no valid slot exists at all — with a resolvable day a slot is always
found within the 14-day search horizon). -/
theorem C3_schedule_soundness (sched : call_schedules) (t : Int)
    (days : List String) (st et : String)
    (hdays : sched.schedule_rules.days = some days)
    (hst : sched.schedule_rules.start_time = some st)
    (het : sched.schedule_rules.end_time = some et)
    (hs24 : (parseTimeParts st).1 ≤ 23 ∧ (parseTimeParts st).2 ≤ 59)
    (he24 : (parseTimeParts et).1 ≤ 23 ∧ (parseTimeParts et).2 ≤ 59)
    (horder : totalMinutes (parseTimeParts st) ≤ totalMinutes (parseTimeParts et)) :
    (∀ s, getNextValidScheduleDate sched t = some s →
        t ≤ s ∧ getDay (s + sched.time_zone) ∈ resolvedDays days
        ∧ totalMinutes (parseTimeParts st) ≤ timeOfDay (s + sched.time_zone)
        ∧ timeOfDay (s + sched.time_zone) ≤ totalMinutes (parseTimeParts et))
    ∧ (getNextValidScheduleDate sched t = none ↔
        (isValidScheduleRules sched.schedule_rules = false
          ∨ resolvedDays days = [])) := by
  have hcore := getNextValidScheduleDate_isSome sched t
  have hof : resolvedDaysOf sched.schedule_rules = resolvedDays days := by
    unfold resolvedDaysOf
    rw [hdays]
  constructor
  · intro s hs
    unfold getNextValidScheduleDate at hs
    by_cases hv : isValidScheduleRules sched.schedule_rules = true
    · rw [if_pos hv, hdays, hst, het] at hs
      by_cases hres : resolvedDays days = []
      · simp [hres] at hs
      · simp only [hres, if_false] at hs
        obtain ⟨w, hw, hsw⟩ := Option.map_eq_some'.mp hs
        have hs0 : 0 ≤ totalMinutes (parseTimeParts st) := by
          have := parseTimeParts_nonneg st
          unfold totalMinutes
          omega
        have he1439 : totalMinutes (parseTimeParts et) ≤ 1439 := by
          have := parseTimeParts_nonneg et
          unfold totalMinutes
          omega
        obtain ⟨h1, h2, h3, h4⟩ := searchLoop_sound (resolvedDays days)
          (totalMinutes (parseTimeParts st)) (totalMinutes (parseTimeParts et))
          hs0 horder he1439 14 (t + sched.time_zone) w hw
        have hsz : s + sched.time_zone = w := by omega
        rw [hsz]
        exact ⟨by omega, h2, h3, h4⟩
    · rw [if_neg hv] at hs
      cases hs
  · constructor
    · intro hnone
      rw [hnone] at hcore
      rw [hof] at hcore
      by_cases hv : isValidScheduleRules sched.schedule_rules = true
      · right
        rw [hv] at hcore
        simp at hcore
        exact hcore
      · left
        simpa [Bool.not_eq_true] using hv
    · intro h
      rcases h with h | h
      · unfold getNextValidScheduleDate
        simp [h]
      · rw [hof, h] at hcore
        simp at hcore
        exact hcore

/-- **C3, witness.**  The amended soundness statement instantiated at the
Monday 09:00–17:00 schedule from Monday 08:00, applied to the returned
instant (Monday 09:00). -/
theorem C3_witness :
    ((4 * 1440 + 480 : Int) ≤ 4 * 1440 + 540
      ∧ getDay (4 * 1440 + 540 + schedMon.time_zone) ∈ resolvedDays ["monday"]
      ∧ totalMinutes (parseTimeParts "09:00")
          ≤ timeOfDay (4 * 1440 + 540 + schedMon.time_zone)
      ∧ timeOfDay (4 * 1440 + 540 + schedMon.time_zone)
          ≤ totalMinutes (parseTimeParts "17:00"))
    ∧ (getNextValidScheduleDate schedMon (4 * 1440 + 480) = none ↔
        (isValidScheduleRules schedMon.schedule_rules = false
          ∨ resolvedDays ["monday"] = [])) :=
  ⟨(C3_schedule_soundness schedMon (4 * 1440 + 480) ["monday"] "09:00" "17:00"
      rfl rfl rfl (by decide) (by decide) (by decide)).1
      (4 * 1440 + 540) (by decide),
    (C3_schedule_soundness schedMon (4 * 1440 + 480) ["monday"] "09:00" "17:00"
      rfl rfl rfl (by decide) (by decide) (by decide)).2⟩

/-- **C4.**  Evaluating the gate: on a denied execution (counter already at
the cap) the inline `DECR` *and* the `finally` `DECR` both run, so the
counter ends one below its initial value — the execution does not leave
the counter net unchanged, and release is not performed only after a
successful acquire.  (On an admitted execution the counter is net
unchanged, as the claim says.) -/
theorem C4_denied_execution_decrements_counter_twice :
    (workerStep
        { task := some taskPendingFixture, campaign := campaignFixture,
          activeCalls := 1, logs := [] } mondayEight true).2
      = WorkerResult.concurrencyDenied
    ∧ (workerStep
        { task := some taskPendingFixture, campaign := campaignFixture,
          activeCalls := 1, logs := [] } mondayEight true).1.activeCalls
      = 1 - 1
    ∧ (workerStep
        { task := some taskPendingFixture, campaign := campaignFixture,
          activeCalls := 0, logs := [] } mondayEight true).1.activeCalls
      = 0 := by
  decide

/-- **C5.**  With `max_retries = 2` and a placer that fails on every
attempt, three worker executions drive the task from `pending` to
terminal `failed`: the first two are retry-reschedules, the third is the
permanent failure; exactly 3 call logs (place attempts) were created, and
the final task has `retry_count = 2` with `failed_tasks` up by 1 and
`retries_attempted` up by 2 in total.  In general, a worker execution
preserves `retry_count ≤ max_retries` — the retry bump happens only under
`retry_count < max_retries`, and every other path leaves `retry_count`
unchanged — so a task that starts within the bound (tasks are created with
`retry_count = 0`) still satisfies it when it reaches terminal
`failed`. -/
theorem C5_retry_exhaustion :
    ((workerStep ⟨some taskPendingFixture, campaignFixture, 0, []⟩ mondayEight
        false).2 = WorkerResult.retryableError
      ∧ (workerStep (workerStep ⟨some taskPendingFixture, campaignFixture, 0, []⟩
          mondayEight false).1 mondayEight false).2 = WorkerResult.retryableError
      ∧ (workerStep (workerStep (workerStep
          ⟨some taskPendingFixture, campaignFixture, 0, []⟩
          mondayEight false).1 mondayEight false).1 mondayEight false).2
        = WorkerResult.maxRetriesExhausted
      ∧ (workerStep (workerStep (workerStep
          ⟨some taskPendingFixture, campaignFixture, 0, []⟩
          mondayEight false).1 mondayEight false).1 mondayEight false).1.task
        = some ⟨TaskStatus.failed, 2, some 6300, mondayEight⟩
      ∧ (workerStep (workerStep (workerStep
          ⟨some taskPendingFixture, campaignFixture, 0, []⟩
          mondayEight false).1 mondayEight false).1 mondayEight false).1.logs.length
        = 3
      ∧ (workerStep (workerStep (workerStep
          ⟨some taskPendingFixture, campaignFixture, 0, []⟩
          mondayEight false).1 mondayEight false).1 mondayEight
          false).1.campaign.failed_tasks = campaignFixture.failed_tasks + 1
      ∧ (workerStep (workerStep (workerStep
          ⟨some taskPendingFixture, campaignFixture, 0, []⟩
          mondayEight false).1 mondayEight false).1 mondayEight
          false).1.campaign.retries_attempted
        = campaignFixture.retries_attempted + 2)
    ∧ (∀ (s : WorkerState) (now : Int) (ok : Bool) (t t' : call_tasks),
        s.task = some t → t.retry_count ≤ s.campaign.max_retries →
        (workerStep s now ok).1.task = some t' →
        t'.retry_count ≤ (workerStep s now ok).1.campaign.max_retries) := by
  constructor
  · decide
  · intro s now ok t t' hload hle ht'
    rw [workerStep_max_retries]
    by_cases h1 : t.status = TaskStatus.pending
    · by_cases h2 : s.activeCalls + 1 > s.campaign.max_concurrent_calls
      · rw [workerStep_denied s now ok t hload h1 h2] at ht'
        injection ht' with h
        rw [← h]
        exact hle
      · cases ok
        · by_cases h3 : t.retry_count < s.campaign.max_retries
          · rw [workerStep_retry s now t hload h1 h2 h3] at ht'
            injection ht' with h
            rw [← h]
            exact h3
          · rw [workerStep_failed s now t hload h1 h2 h3] at ht'
            injection ht' with h
            rw [← h]
            exact hle
        · rw [workerStep_success s now t hload h1 h2] at ht'
          injection ht' with h
          rw [← h]
          exact hle
    · rw [workerStep_not_found s now ok t hload h1] at ht'
      rw [hload] at ht'
      injection ht' with h
      rw [← h]
      exact hle

/-- **C5, witness.**  The preservation component applied at a concrete
admitted execution with a failing placer. -/
theorem C5_witness :
    taskPendingFixture.retry_count ≤
      (⟨some taskPendingFixture, campaignFixture, 0, []⟩ :
        WorkerState).campaign.max_retries
    ∧ ∀ t', (workerStep ⟨some taskPendingFixture, campaignFixture, 0, []⟩
        mondayEight false).1.task = some t' →
        t'.retry_count ≤ (workerStep ⟨some taskPendingFixture, campaignFixture,
          0, []⟩ mondayEight false).1.campaign.max_retries :=
  ⟨by decide, fun t' ht' =>
    C5_retry_exhaustion.2 ⟨some taskPendingFixture, campaignFixture, 0, []⟩
      mondayEight false taskPendingFixture t' rfl (by decide) ht'⟩

/-- **C6, counterexample.**  Deviations the claim says must yield ⊥ do
not: "99:99" matches `^\d{2}:\d{2}$` but is not a valid 24-hour time, yet
the function returns an instant (four days later at 04:39 wall clock, the
rolled-over window start); and a list containing the unrecognized name
"notaday" next to "monday" also returns an instant. -/
theorem C6_counterexample :
    getNextValidScheduleDate ⟨1, ⟨some ["monday"], some "99:99", some "99:99"⟩, 0⟩
        (4 * 1440 + 480) = some 11799
    ∧ ¬ (parseTimeParts "99:99").1 ≤ 23
    ∧ getNextValidScheduleDate
        ⟨1, ⟨some ["monday", "notaday"], some "09:00", some "17:00"⟩, 0⟩
        (4 * 1440 + 480) = some (4 * 1440 + 540)
    ∧ (dayNameToIndex (toLowerStr "notaday")).isNone = true := by
  refine ⟨by decide, by decide, by decide, by decide⟩

/-- **C6, amended.**  `getNextValidScheduleDate` returns a non-⊥ result
exactly when the rules pass the runtime shape check (`days` is an array
and both time strings match `^\d{2}:\d{2}$`) and at least one entry of
`days` is a recognized case-insensitive English weekday name.
Unrecognized day names are skipped rather than rejected, duplicate names
are allowed, and a time matching the pattern is accepted even when it is
not a valid 24-hour time (its excess rolls over into later days). -/
theorem C6_validation_characterization (sched : call_schedules) (t : Int) :
    (getNextValidScheduleDate sched t).isSome =
      (isValidScheduleRules sched.schedule_rules
        && !(resolvedDaysOf sched.schedule_rules).isEmpty) :=
  getNextValidScheduleDate_isSome sched t

/-- **C7.**  A concurrency-denied execution rewrites the task to
`pending` with `scheduled_at = getNextValidScheduleDate(schedule, now)`
and `updated_at = now`, and changes nothing else in the database: the
task's `retry_count` and the campaign row — in particular
`retries_attempted`, `completed_tasks`, `failed_tasks`, `total_tasks` —
keep their prior values, and no call log is written.  (The Redis counter
is *not* net unchanged; that is settled under C4.) -/
theorem C7_concurrency_denial_frame (s : WorkerState) (t : call_tasks)
    (now : Int) (placerSucceeds : Bool)
    (hload : s.task = some t) (hpend : t.status = TaskStatus.pending)
    (hdeny : s.activeCalls + 1 > s.campaign.max_concurrent_calls) :
    workerStep s now placerSucceeds =
      ({ s with
          task := some { t with
            status := TaskStatus.pending
            scheduled_at := getNextValidScheduleDate s.campaign.call_schedules now
            updated_at := now }
          activeCalls := s.activeCalls + 1 - 1 - 1 },
        WorkerResult.concurrencyDenied)
    ∧ (workerStep s now placerSucceeds).1.campaign = s.campaign
    ∧ (workerStep s now placerSucceeds).1.logs = s.logs
    ∧ (∀ t', (workerStep s now placerSucceeds).1.task = some t' →
        t'.retry_count = t.retry_count) := by
  have hmain := workerStep_denied s now placerSucceeds t hload hpend hdeny
  refine ⟨hmain, ?_, ?_, ?_⟩
  · rw [hmain]
  · rw [hmain]
  · intro t' ht'
    rw [hmain] at ht'
    cases ht'
    rfl

/-- **C7, witness.**  The denial frame at a concrete denied execution
(counter already at the cap of 1). -/
theorem C7_witness :
    workerStep ⟨some taskPendingFixture, campaignFixture, 1, []⟩ mondayEight true =
      ({ (⟨some taskPendingFixture, campaignFixture, 1, []⟩ : WorkerState) with
          task := some { taskPendingFixture with
            status := TaskStatus.pending
            scheduled_at := getNextValidScheduleDate campaignFixture.call_schedules
              mondayEight
            updated_at := mondayEight }
          activeCalls := 1 + 1 - 1 - 1 },
        WorkerResult.concurrencyDenied)
    ∧ (workerStep ⟨some taskPendingFixture, campaignFixture, 1, []⟩ mondayEight
        true).1.campaign = campaignFixture
    ∧ (workerStep ⟨some taskPendingFixture, campaignFixture, 1, []⟩ mondayEight
        true).1.logs = []
    ∧ (∀ t', (workerStep ⟨some taskPendingFixture, campaignFixture, 1, []⟩
        mondayEight true).1.task = some t' →
        t'.retry_count = taskPendingFixture.retry_count) :=
  C7_concurrency_denial_frame ⟨some taskPendingFixture, campaignFixture, 1, []⟩
    taskPendingFixture mondayEight true rfl rfl (by decide)

/-- **C8.**  `getCampaignStatus` agrees with the derivation the claim
describes, on every `is_paused` flag and every multiset of task
statuses. -/
theorem C8_campaign_status_derivation (p : Bool) (ts : List TaskStatus) :
    getCampaignStatus p ts = campaignStatusSpec p ts := by
  unfold getCampaignStatus campaignStatusSpec
  cases p
  · simp only [Bool.false_eq_true, if_false]
    have hlen : (ts.length = 0) ↔ (ts = []) := List.length_eq_zero
    have hfail : (0 < ts.countP (fun t => t == TaskStatus.failed)) ↔
        TaskStatus.failed ∈ ts := by
      rw [List.countP_pos_iff]
      simp only [beq_iff_eq, exists_eq_right]
    have hip : (0 < ts.countP (fun t => t == TaskStatus.inProgress)) ↔
        TaskStatus.inProgress ∈ ts := by
      rw [List.countP_pos_iff]
      simp only [beq_iff_eq, exists_eq_right]
    have hpend : (0 < ts.countP (fun t => t == TaskStatus.pending)) ↔
        TaskStatus.pending ∈ ts := by
      rw [List.countP_pos_iff]
      simp only [beq_iff_eq, exists_eq_right]
    have hcomp : (ts.countP (fun t => t == TaskStatus.completed) = ts.length) ↔
        (∀ t ∈ ts, t = TaskStatus.completed) := by
      rw [List.countP_eq_length]
      simp only [beq_iff_eq]
    simp only [gt_iff_lt, hlen, hfail, hip, hpend, hcomp, or_comm]
  · simp

/-- **C9.**  On placer success the worker's transaction performs exactly
the three updates — the attempt's log set to `completed` with
`ended_at = now`, the task set to `completed`, the campaign's
`completed_tasks` incremented by one — as a single simultaneous state
change (the model of the `prisma.$transaction` of the success path), and
nothing else: the resulting state is fully determined, with the task's
`retry_count` and `scheduled_at` and the campaign's `failed_tasks`,
`retries_attempted` and `total_tasks` untouched. -/
theorem C9_success_transaction (s : WorkerState) (t : call_tasks) (now : Int)
    (hload : s.task = some t) (hpend : t.status = TaskStatus.pending)
    (hcap : ¬ s.activeCalls + 1 > s.campaign.max_concurrent_calls) :
    workerStep s now true =
      ({ task := some { t with status := TaskStatus.completed, updated_at := now }
         campaign := { s.campaign with
           completed_tasks := s.campaign.completed_tasks + 1
           updated_at := now }
         activeCalls := s.activeCalls + 1 - 1
         logs := s.logs ++ [⟨LogStatus.completed, now, some now⟩] },
        WorkerResult.success)
    ∧ (∀ t', (workerStep s now true).1.task = some t' →
        t'.retry_count = t.retry_count ∧ t'.scheduled_at = t.scheduled_at)
    ∧ (workerStep s now true).1.campaign.failed_tasks = s.campaign.failed_tasks
    ∧ (workerStep s now true).1.campaign.retries_attempted
        = s.campaign.retries_attempted
    ∧ (workerStep s now true).1.campaign.total_tasks = s.campaign.total_tasks := by
  have hmain := workerStep_success s now t hload hpend hcap
  refine ⟨hmain, ?_, ?_, ?_, ?_⟩
  · intro t' ht'
    rw [hmain] at ht'
    cases ht'
    exact ⟨rfl, rfl⟩
  · rw [hmain]
  · rw [hmain]
  · rw [hmain]

/-- **C9, witness.**  The success transaction at a concrete admitted
execution. -/
theorem C9_witness :
    workerStep ⟨some taskPendingFixture, campaignFixture, 0, []⟩ mondayEight true =
      ({ task := some { taskPendingFixture with
           status := TaskStatus.completed, updated_at := mondayEight }
         campaign := { campaignFixture with
           completed_tasks := campaignFixture.completed_tasks + 1
           updated_at := mondayEight }
         activeCalls := 0 + 1 - 1
         logs := [] ++ [⟨LogStatus.completed, mondayEight, some mondayEight⟩] },
        WorkerResult.success)
    ∧ (∀ t', (workerStep ⟨some taskPendingFixture, campaignFixture, 0, []⟩
        mondayEight true).1.task = some t' →
        t'.retry_count = taskPendingFixture.retry_count
        ∧ t'.scheduled_at = taskPendingFixture.scheduled_at)
    ∧ (workerStep ⟨some taskPendingFixture, campaignFixture, 0, []⟩ mondayEight
        true).1.campaign.failed_tasks = campaignFixture.failed_tasks
    ∧ (workerStep ⟨some taskPendingFixture, campaignFixture, 0, []⟩ mondayEight
        true).1.campaign.retries_attempted = campaignFixture.retries_attempted
    ∧ (workerStep ⟨some taskPendingFixture, campaignFixture, 0, []⟩ mondayEight
        true).1.campaign.total_tasks = campaignFixture.total_tasks :=
  C9_success_transaction ⟨some taskPendingFixture, campaignFixture, 0, []⟩
    taskPendingFixture mondayEight rfl rfl (by decide)

/-- **C10.**  On a failed placement the attempt's log row is left exactly
as `simulateCall` put it — non-terminal status `in_progress`, no
`ended_at` — while the task is rescheduled (`pending`) or marked `failed`;
no later update ever touches that log row. -/
theorem C10_failed_placement_log_frame (s : WorkerState) (t : call_tasks)
    (now : Int)
    (hload : s.task = some t) (hpend : t.status = TaskStatus.pending)
    (hcap : ¬ s.activeCalls + 1 > s.campaign.max_concurrent_calls) :
    (workerStep s now false).1.logs =
      s.logs ++ [⟨LogStatus.inProgress, now, none⟩]
    ∧ ((workerStep s now false).2 = WorkerResult.retryableError
        ∨ (workerStep s now false).2 = WorkerResult.maxRetriesExhausted)
    ∧ (∀ t', (workerStep s now false).1.task = some t' →
        t'.status = TaskStatus.pending ∨ t'.status = TaskStatus.failed) := by
  by_cases hr : t.retry_count < s.campaign.max_retries
  · rw [workerStep_retry s now t hload hpend hcap hr]
    refine ⟨rfl, Or.inl rfl, ?_⟩
    intro t' ht'
    injection ht' with h
    rw [← h]
    exact Or.inl rfl
  · rw [workerStep_failed s now t hload hpend hcap hr]
    refine ⟨rfl, Or.inr rfl, ?_⟩
    intro t' ht'
    injection ht' with h
    rw [← h]
    exact Or.inr rfl

/-- **C10, witness.**  The failure-path log frame at a concrete admitted
execution with a failing placer. -/
theorem C10_witness :
    (workerStep ⟨some taskPendingFixture, campaignFixture, 0, []⟩ mondayEight
        false).1.logs =
      [] ++ [⟨LogStatus.inProgress, mondayEight, none⟩]
    ∧ ((workerStep ⟨some taskPendingFixture, campaignFixture, 0, []⟩ mondayEight
          false).2 = WorkerResult.retryableError
        ∨ (workerStep ⟨some taskPendingFixture, campaignFixture, 0, []⟩ mondayEight
          false).2 = WorkerResult.maxRetriesExhausted)
    ∧ (∀ t', (workerStep ⟨some taskPendingFixture, campaignFixture, 0, []⟩
        mondayEight false).1.task = some t' →
        t'.status = TaskStatus.pending ∨ t'.status = TaskStatus.failed) :=
  C10_failed_placement_log_frame ⟨some taskPendingFixture, campaignFixture, 0, []⟩
    taskPendingFixture mondayEight rfl rfl (by decide)

end CallCampaign
